import Mathlib

/-!
Shallow embedding of `libs/langchain/langchain/agents/openai_functions_agent/base.py`
(the OpenAI-functions agent adapter) together with the collaborator functions it
calls (history formatter, output parsing, prompt templates), and proofs of the
specified properties.

The language model itself is external: it is modelled as an oracle
`LLMRequest → Message` passed to every operation that invokes it, and each such
operation additionally returns the list of requests it actually sent, so that
"performs no model call" and "exactly one call" are statable.
-/

/-- Structured data (the decoded form of a function-call argument payload). -/
inductive Json where
  | str (s : String)
  | num (n : Int)
  | bool (b : Bool)
  | null
  | arr (xs : List Json)
  | obj (fields : List (String × Json))
deriving Repr

/-- Modelled from the spec: a serialized function-call argument payload, as it
appears embedded in an ai message.  The spec only distinguishes payloads that
are valid structured data (they decode to their structured value) from
malformed ones (decoding must fail); the concrete wire syntax is external, so a
payload is modelled by its decoding outcome. -/
inductive ArgsPayload where
  | wellFormed (data : Json)
  | malformed (raw : String)
deriving Repr

/-- Modelled from the spec: decoding a serialized argument payload into
structured data; malformed payloads do not decode. -/
def ArgsPayload.decode : ArgsPayload → Option Json
  | .wellFormed data => some data
  | .malformed _ => none

/-- An embedded "requested function call" carried by an ai message
(tool name + serialized arguments). -/
structure FunctionCall where
  name : String
  arguments : ArgsPayload
deriving Repr

/-- A chat message: a tagged variant over system / human / ai / function-result,
each carrying text content; ai messages optionally carry an embedded
function-call request. -/
inductive Message where
  | system (content : String)
  | human (content : String)
  | ai (content : String) (function_call : Option FunctionCall)
  | function (name : String) (content : String)
deriving Repr

/-- The plain text content of a message. -/
def Message.content : Message → String
  | .system c => c
  | .human c => c
  | .ai c _ => c
  | .function _ c => c

/-- The embedded function-call request of a message, when present (only ai
messages can carry one). -/
def Message.function_call : Message → Option FunctionCall
  | .ai _ fc => fc
  | _ => none

/-- AgentAction: tool name + tool input (decoded arguments) + a log string. -/
structure AgentAction where
  tool : String
  toolInput : Json
  log : String
deriving Repr

/-- AgentFinish: final output mapping + a log string. -/
structure AgentFinish where
  returnValues : List (String × String)
  log : String
deriving Repr

/-- The outcome of one planning call: invoke a tool, or stop. -/
inductive Decision where
  | action (a : AgentAction)
  | finish (f : AgentFinish)
deriving Repr

/-- One recorded step of work-so-far: the action taken and the observation
text the tool returned (`Tuple[AgentAction, str]` in the source). -/
def IntermediateStep := AgentAction × String

/-- The error taxonomy of the module: configuration errors (construction time
or bad stop selector), a missing required input variable (the `KeyError`
raised by `kwargs[k]` in `plan`/`aplan`), contract violations (the model
requested a tool when none were offered), decoding errors (malformed
function-call arguments), and a wrongly-typed input value. -/
inductive AgentError where
  | configuration (msg : String)
  | missingVariable (k : String)
  | contractViolation (msg : String)
  | decoding (msg : String)
  | typeMismatch (k : String)
deriving Repr, DecidableEq

/-- A value supplied for a template input variable: plain text, a message
list (for placeholder slots), or an intermediate-step list (the
`intermediate_steps` entry consumed by the declarative pipeline). -/
inductive InputValue where
  | str (s : String)
  | messages (ms : List Message)
  | steps (ss : List IntermediateStep)

/-- Dictionary read on a keyword mapping (first binding wins, as in a Python
dict built left to right). -/
def lookupKey : List (String × InputValue) → String → Option InputValue
  | [], _ => none
  | p :: ps, k => if p.1 = k then some p.2 else lookupKey ps k

/-- Dictionary update `x | {k: v}` on a keyword mapping. -/
def dictInsert (x : List (String × InputValue)) (k : String) (v : InputValue) :
    List (String × InputValue) :=
  (k, v) :: x.filter (fun p => p.1 ≠ k)

/-- One piece of a human-message template: literal text or a variable slot. -/
inductive TemplatePiece where
  | lit (s : String)
  | var (name : String)

/-- The variables a template piece reads. -/
def TemplatePiece.varsOf : TemplatePiece → List String
  | .lit _ => []
  | .var n => [n]

/-- Modelled from the spec: one slot of a chat prompt template — a fixed
message, a human-message template over variables, or a messages placeholder
named by a variable. -/
inductive PromptSlot where
  | fixedMessage (m : Message)
  | humanTemplate (pieces : List TemplatePiece)
  | placeholder (variable_name : String)

/-- The input variables one slot declares. -/
def PromptSlot.varsOf : PromptSlot → List String
  | .fixedMessage _ => []
  | .humanTemplate pieces => pieces.flatMap TemplatePiece.varsOf
  | .placeholder v => [v]

/-- Modelled from the spec: a chat prompt template is an ordered sequence of
message slots. -/
structure ChatPromptTemplate where
  messages : List PromptSlot

/-- The input variables the template declares (`prompt.input_variables`). -/
def ChatPromptTemplate.input_variables (p : ChatPromptTemplate) : List String :=
  p.messages.flatMap PromptSlot.varsOf

/-- Text rendering of a value substituted into a human-message template
(plain text renders as itself; structured values render via their contents). -/
def InputValue.asText : InputValue → String
  | .str s => s
  | .messages ms => String.intercalate ", " (ms.map Message.content)
  | .steps ss => String.intercalate ", " (ss.map (fun s => s.2))

/-- Render one template piece against the inputs; a variable piece fails when
its variable is missing. -/
def renderPiece (inputs : List (String × InputValue)) :
    TemplatePiece → Except AgentError String
  | .lit s => .ok s
  | .var n =>
    match lookupKey inputs n with
    | some v => .ok v.asText
    | none => .error (.missingVariable n)

/-- Render one slot into its message list: fixed messages pass through, human
templates concatenate their rendered pieces, a placeholder splices in the
message list bound to its variable (and fails when the variable is missing or
not bound to messages). -/
def renderSlot (inputs : List (String × InputValue)) :
    PromptSlot → Except AgentError (List Message)
  | .fixedMessage m => .ok [m]
  | .humanTemplate pieces => do
    let parts ← pieces.mapM (renderPiece inputs)
    .ok [Message.human (String.join parts)]
  | .placeholder v =>
    match lookupKey inputs v with
    | some (.messages ms) => .ok ms
    | some _ => .error (.typeMismatch v)
    | none => .error (.missingVariable v)

/-- Modelled from the spec: `format_prompt` — produce the fully rendered
ordered message sequence from the template and the input mapping, failing when
a required variable is missing. -/
def ChatPromptTemplate.format_prompt (p : ChatPromptTemplate)
    (inputs : List (String × InputValue)) : Except AgentError (List Message) := do
  let rendered ← p.messages.mapM (renderSlot inputs)
  .ok rendered.flatten

/-- A tool definition: name, description, argument schema. -/
structure ToolSpec where
  name : String
  description : String
  argsSchema : Json

/-- A function schema offered to the model (name, description, parameter
shape). -/
structure FunctionSchema where
  name : String
  description : String
  parameters : Json

/-- Modelled from the spec: translate a tool definition into the function
schema offered to the model (`format_tool_to_openai_function`). -/
def format_tool_to_openai_function (t : ToolSpec) : FunctionSchema :=
  ⟨t.name, t.description, t.argsSchema⟩

/-- One request to the model-invocation boundary: the rendered messages plus,
when tool schemas are offered on this call, the schema list. -/
structure LLMRequest where
  messages : List Message
  functions : Option (List FunctionSchema)

/-- Modelled from the spec: `format_to_openai_function_messages` — each step
contributes exactly two messages, an ai message carrying the recorded
function-call request followed by a function-result message carrying the
observation text tagged with the tool's name. -/
def format_to_openai_function_messages (steps : List IntermediateStep) :
    List Message :=
  steps.flatMap fun s =>
    [Message.ai "" (some ⟨s.1.tool, ArgsPayload.wellFormed s.1.toolInput⟩),
     Message.function s.1.tool s.2]

/-- Modelled from the spec: the output parsing policy
(`OpenAIFunctionsAgentOutputParser._parse_ai_message`) — a message carrying an
embedded function-call request yields an AgentAction naming that tool with the
decoded arguments (a malformed payload surfaces a decoding error); otherwise
the message's plain text content is wrapped in an AgentFinish under the
"output" key. -/
def parse_ai_message (m : Message) : Except AgentError Decision :=
  match m.function_call with
  | some fc =>
    match fc.arguments.decode with
    | some toolInput => .ok (.action ⟨fc.name, toolInput, m.content⟩)
    | none => .error (.decoding ("Could not parse tool input: " ++ fc.name))
  | none => .ok (.finish ⟨[("output", m.content)], m.content⟩)

/-- The agent adapter's immutable configuration: tool list and prompt template
(the model handle is passed as an oracle to each operation). -/
structure OpenAIFunctionsAgent where
  tools : List ToolSpec
  prompt : ChatPromptTemplate

/-- `self.functions`: the serialized schema list of all tools. -/
def OpenAIFunctionsAgent.functions (ag : OpenAIFunctionsAgent) :
    List FunctionSchema :=
  ag.tools.map format_tool_to_openai_function

/-- Construction with the `validate_prompt` root validator: a template whose
declared variables lack `agent_scratchpad` is rejected. -/
def OpenAIFunctionsAgent.construct (tools : List ToolSpec)
    (prompt : ChatPromptTemplate) : Except AgentError OpenAIFunctionsAgent :=
  if "agent_scratchpad" ∈ prompt.input_variables then
    .ok ⟨tools, prompt⟩
  else
    .error (.configuration
      ("`agent_scratchpad` should be one of the variables in the prompt, got "
        ++ String.intercalate ", " prompt.input_variables))

/-- The dict comprehension
`{k: kwargs[k] for k in self.prompt.input_variables if k != "agent_scratchpad"}`:
selects the declared non-scratchpad variables from the caller's keyword
mapping, failing (KeyError) at the first missing one. -/
def selectedInputs : List String → List (String × InputValue) →
    Except AgentError (List (String × InputValue))
  | [], _ => .ok []
  | k :: ks, kwargs =>
    if k = "agent_scratchpad" then selectedInputs ks kwargs
    else
      match lookupKey kwargs k with
      | none => .error (.missingVariable k)
      | some v =>
        match selectedInputs ks kwargs with
        | .error e => .error e
        | .ok rest => .ok ((k, v) :: rest)

/-- `OpenAIFunctionsAgent.plan`: format the history, select the declared
inputs, inject the scratchpad, render the prompt, invoke the model (offering
the tool schemas iff `with_functions`), and parse the returned message.  The
second component records the requests actually sent to the model. -/
def OpenAIFunctionsAgent.plan (ag : OpenAIFunctionsAgent)
    (llm : LLMRequest → Message) (intermediate_steps : List IntermediateStep)
    (with_functions : Bool) (kwargs : List (String × InputValue)) :
    Except AgentError Decision × List LLMRequest :=
  let agent_scratchpad := format_to_openai_function_messages intermediate_steps
  match selectedInputs ag.prompt.input_variables kwargs with
  | .error e => (.error e, [])
  | .ok selected =>
    let full_inputs :=
      selected ++ [("agent_scratchpad", InputValue.messages agent_scratchpad)]
    match ag.prompt.format_prompt full_inputs with
    | .error e => (.error e, [])
    | .ok messages =>
      let req : LLMRequest :=
        if with_functions then ⟨messages, some ag.functions⟩
        else ⟨messages, none⟩
      let predicted_message := llm req
      (parse_ai_message predicted_message, [req])

/-- `OpenAIFunctionsAgent.aplan`: the awaitable planning path — same steps as
`plan`, but it always offers the tool schemas (it has no `with_functions`
flag). -/
def OpenAIFunctionsAgent.aplan (ag : OpenAIFunctionsAgent)
    (llm : LLMRequest → Message) (intermediate_steps : List IntermediateStep)
    (kwargs : List (String × InputValue)) :
    Except AgentError Decision × List LLMRequest :=
  let agent_scratchpad := format_to_openai_function_messages intermediate_steps
  match selectedInputs ag.prompt.input_variables kwargs with
  | .error e => (.error e, [])
  | .ok selected =>
    let full_inputs :=
      selected ++ [("agent_scratchpad", InputValue.messages agent_scratchpad)]
    match ag.prompt.format_prompt full_inputs with
    | .error e => (.error e, [])
    | .ok messages =>
      let predicted_message := llm ⟨messages, some ag.functions⟩
      (parse_ai_message predicted_message, [⟨messages, some ag.functions⟩])

/-- `OpenAIFunctionsAgent.return_stopped_response`: "force" returns the fixed
AgentFinish without any model call; "generate" does one tools-disabled `plan`
call, passes an AgentFinish through, and treats an AgentAction as a contract
violation; any other selector is a configuration error naming both valid
values. -/
def OpenAIFunctionsAgent.return_stopped_response (ag : OpenAIFunctionsAgent)
    (llm : LLMRequest → Message) (early_stopping_method : String)
    (intermediate_steps : List IntermediateStep)
    (kwargs : List (String × InputValue)) :
    Except AgentError AgentFinish × List LLMRequest :=
  if early_stopping_method = "force" then
    (.ok ⟨[("output", "Agent stopped due to iteration limit or time limit.")], ""⟩,
     [])
  else if early_stopping_method = "generate" then
    match ag.plan llm intermediate_steps false kwargs with
    | (.ok (.finish f), tr) => (.ok f, tr)
    | (.ok (.action _), tr) =>
      (.error (.contractViolation "got AgentAction with no functions provided"),
       tr)
    | (.error e, tr) => (.error e, tr)
  else
    (.error (.configuration
      ("early_stopping_method should be one of `force` or `generate`, got "
        ++ early_stopping_method)), [])

/-- The declarative pipeline body built by `create_openai_functions_agent`:
assign `agent_scratchpad` from the formatted `intermediate_steps` entry, render
the prompt over the merged mapping, invoke the model with the tool schemas
bound, and parse the result. -/
def runPipeline (tools : List ToolSpec) (prompt : ChatPromptTemplate)
    (llm : LLMRequest → Message) (x : List (String × InputValue)) :
    Except AgentError Decision × List LLMRequest :=
  match lookupKey x "intermediate_steps" with
  | some (.steps ss) =>
    let merged :=
      dictInsert x "agent_scratchpad"
        (InputValue.messages (format_to_openai_function_messages ss))
    match prompt.format_prompt merged with
    | .error e => (.error e, [])
    | .ok messages =>
      let req : LLMRequest :=
        ⟨messages, some (tools.map format_tool_to_openai_function)⟩
      (parse_ai_message (llm req), [req])
  | some _ => (.error (.typeMismatch "intermediate_steps"), [])
  | none => (.error (.missingVariable "intermediate_steps"), [])

/-- `create_openai_functions_agent`: validates the scratchpad-placeholder
invariant, then returns the declarative pipeline. -/
def create_openai_functions_agent (tools : List ToolSpec)
    (prompt : ChatPromptTemplate) :
    Except AgentError
      ((LLMRequest → Message) → List (String × InputValue) →
        Except AgentError Decision × List LLMRequest) :=
  if "agent_scratchpad" ∈ prompt.input_variables then
    .ok (runPipeline tools prompt)
  else
    .error (.configuration
      ("Prompt must have input variable `agent_scratchpad`, but wasn't found. Found "
        ++ String.intercalate ", " prompt.input_variables ++ " instead."))

/-- The shared message-building stage of `plan` and `aplan` (lines 88-94 and
127-133 of the source are verbatim copies of each other): select the declared
inputs, inject the formatted scratchpad, render the prompt.  `plan` and `aplan`
above transcribe the two source methods separately; this staged form is proved
equal to both below. -/
def OpenAIFunctionsAgent.buildMessages (ag : OpenAIFunctionsAgent)
    (intermediate_steps : List IntermediateStep)
    (kwargs : List (String × InputValue)) : Except AgentError (List Message) := do
  let selected ← selectedInputs ag.prompt.input_variables kwargs
  ag.prompt.format_prompt (selected ++ [("agent_scratchpad",
    InputValue.messages (format_to_openai_function_messages intermediate_steps))])

/-- The output parsing policy of the spec, as a predicate on a returned model
message and a planning result: an embedded function-call request with
well-formed arguments yields the AgentAction naming that tool with the decoded
input; a malformed payload yields a decoding error; no function-call request
yields an AgentFinish holding exactly the plain text content under "output". -/
def parsePolicy (m : Message) (r : Except AgentError Decision) : Prop :=
  (∀ fc, m.function_call = some fc →
    (∀ j, fc.arguments.decode = some j →
      r = .ok (.action ⟨fc.name, j, m.content⟩)) ∧
    (fc.arguments.decode = none → ∃ msg, r = .error (.decoding msg))) ∧
  (m.function_call = none →
    r = .ok (.finish ⟨[("output", m.content)], m.content⟩))

/-- A minimal concrete agent used by the witnesses: no tools, and a prompt that
is just the scratchpad placeholder. -/
def agW : OpenAIFunctionsAgent :=
  ⟨[], ⟨[.placeholder "agent_scratchpad"]⟩⟩

/-- A concrete model oracle used by the witnesses: always answers with plain
text and no function-call request. -/
def llmW : LLMRequest → Message := fun _ => Message.ai "It is sunny." none

/-- A concrete model oracle used by the witnesses: always answers with a
function-call request for "search" with well-formed arguments. -/
def llmCallW : LLMRequest → Message := fun _ =>
  Message.ai ""
    (some ⟨"search", ArgsPayload.wellFormed (Json.obj [("q", Json.str "x")])⟩)

/-- A concrete intermediate step used by the witnesses. -/
def stepW : IntermediateStep :=
  (⟨"search", Json.obj [("q", Json.str "x")], "l"⟩, "obs")

/-- A concrete agent whose prompt declares a human-input variable besides the
scratchpad placeholder, used by the witnesses. -/
def agV : OpenAIFunctionsAgent :=
  ⟨[], ⟨[.humanTemplate [.var "input"], .placeholder "agent_scratchpad"]⟩⟩

/-! ## Helper lemmas -/

theorem except_bind_ok {ε α β : Type} (a : α) (f : α → Except ε β) :
    (Except.ok a >>= f) = f a := rfl

theorem except_bind_error {ε α β : Type} (e : ε) (f : α → Except ε β) :
    ((Except.error e : Except ε α) >>= f) = .error e := rfl

theorem lookupKey_append (l1 l2 : List (String × InputValue)) (k : String) :
    lookupKey (l1 ++ l2) k =
      match lookupKey l1 k with
      | some v => some v
      | none => lookupKey l2 k := by
  induction l1 with
  | nil => simp [lookupKey]
  | cons p ps ih =>
    by_cases h : p.1 = k
    · simp [lookupKey, h]
    · simp [lookupKey, h, ih]

theorem lookupKey_filter_ne (x : List (String × InputValue)) (s k : String)
    (h : s ≠ k) :
    lookupKey (x.filter (fun p => p.1 ≠ s)) k = lookupKey x k := by
  induction x with
  | nil => rfl
  | cons p ps ih =>
    by_cases hp : p.1 = s
    · have hpk : ¬ p.1 = k := by rw [hp]; exact h
      have hdrop : (p :: ps).filter (fun q => q.1 ≠ s) =
          ps.filter (fun q => q.1 ≠ s) := by
        simp [hp]
      rw [hdrop, ih]
      simp only [lookupKey, if_neg hpk]
    · have hkeep : (p :: ps).filter (fun q => q.1 ≠ s) =
          p :: ps.filter (fun q => q.1 ≠ s) := by
        simp [hp]
      rw [hkeep]
      by_cases hk : p.1 = k
      · simp only [lookupKey, if_pos hk]
      · simp only [lookupKey, if_neg hk, ih]

theorem lookupKey_dictInsert_self (x : List (String × InputValue))
    (k : String) (v : InputValue) :
    lookupKey (dictInsert x k v) k = some v := by
  simp [dictInsert, lookupKey]

theorem lookupKey_dictInsert_ne (x : List (String × InputValue))
    (kk k : String) (v : InputValue) (h : kk ≠ k) :
    lookupKey (dictInsert x kk v) k = lookupKey x k := by
  rw [dictInsert]
  simp only [lookupKey, if_neg h]
  exact lookupKey_filter_ne x kk k h

/-! ## Claim theorems -/

/-- C4: for every intermediate-step sequence and variable mapping,
`return_stopped_response` with selector "force" performs no model invocation
(the request trace is empty) and returns an AgentFinish whose output mapping is
exactly the fixed stop message, regardless of inputs. -/
theorem C4_force_no_model_fixed_output (ag : OpenAIFunctionsAgent)
    (llm : LLMRequest → Message) (steps : List IntermediateStep)
    (kwargs : List (String × InputValue)) :
    ag.return_stopped_response llm "force" steps kwargs =
      (.ok ⟨[("output", "Agent stopped due to iteration limit or time limit.")],
        ""⟩, []) := by
  rfl

/-- C6: for every selector other than "force" and "generate",
`return_stopped_response` fails with a configuration error whose message names
both valid selector values, and sends no request to the model. -/
theorem C6_bad_selector_config_error (ag : OpenAIFunctionsAgent)
    (llm : LLMRequest → Message) (s : String) (steps : List IntermediateStep)
    (kwargs : List (String × InputValue)) (h1 : s ≠ "force")
    (h2 : s ≠ "generate") :
    ag.return_stopped_response llm s steps kwargs =
      (.error (.configuration
        ("early_stopping_method should be one of `force` or `generate`, got "
          ++ s)), []) := by
  unfold OpenAIFunctionsAgent.return_stopped_response
  rw [if_neg h1, if_neg h2]

/-- Witness for C6 at the concrete selector "other". -/
theorem C6_bad_selector_config_error_witness :
    ("other" ≠ "force") ∧ ("other" ≠ "generate") ∧
    (OpenAIFunctionsAgent.mk [] ⟨[]⟩).return_stopped_response
        (fun _ => Message.ai "" none) "other" [] [] =
      (.error (.configuration
        ("early_stopping_method should be one of `force` or `generate`, got "
          ++ "other")), []) :=
  ⟨by decide, by decide,
    C6_bad_selector_config_error ⟨[], ⟨[]⟩⟩ (fun _ => Message.ai "" none)
      "other" [] [] (by decide) (by decide)⟩

/-- C3: for every prompt template whose declared input variables do not include
"agent_scratchpad", both construction paths (the validated constructor and
`create_openai_functions_agent`) fail with a configuration error; construction
never succeeds with such a template. -/
theorem C3_construction_rejects_missing_scratchpad (tools : List ToolSpec)
    (prompt : ChatPromptTemplate)
    (h : "agent_scratchpad" ∉ prompt.input_variables) :
    (∃ msg, OpenAIFunctionsAgent.construct tools prompt =
      .error (.configuration msg)) ∧
    (∃ msg, create_openai_functions_agent tools prompt =
      .error (.configuration msg)) := by
  constructor
  · exact ⟨"`agent_scratchpad` should be one of the variables in the prompt, got "
      ++ String.intercalate ", " prompt.input_variables, by
        unfold OpenAIFunctionsAgent.construct
        rw [if_neg h]⟩
  · exact ⟨"Prompt must have input variable `agent_scratchpad`, but wasn't found. Found "
      ++ String.intercalate ", " prompt.input_variables ++ " instead.", by
        unfold create_openai_functions_agent
        rw [if_neg h]⟩

/-- Witness for C3 at the empty template (which declares no variables). -/
theorem C3_construction_rejects_missing_scratchpad_witness :
    ("agent_scratchpad" ∉ (ChatPromptTemplate.mk []).input_variables) ∧
    ((∃ msg, OpenAIFunctionsAgent.construct [] ⟨[]⟩ =
        .error (.configuration msg)) ∧
     (∃ msg, create_openai_functions_agent [] ⟨[]⟩ =
        .error (.configuration msg))) :=
  ⟨by decide,
    C3_construction_rejects_missing_scratchpad [] ⟨[]⟩ (by decide)⟩

/-- C2: the history formatter produces exactly 2n messages for n steps — for
each step, in input order, one ai message carrying that step's recorded
function-call request, followed by one function-result message carrying the
observation tagged with the tool's name; the empty list produces the empty
sequence, and no step is reordered, deduplicated, or dropped. -/
theorem C2_history_formatter_shape (steps : List IntermediateStep) :
    (format_to_openai_function_messages steps).length = 2 * steps.length ∧
    format_to_openai_function_messages ([] : List IntermediateStep) = [] ∧
    ∀ i, (h : i < steps.length) →
      (format_to_openai_function_messages steps)[2 * i]? =
        some (Message.ai "" (some ⟨steps[i].1.tool,
          ArgsPayload.wellFormed steps[i].1.toolInput⟩)) ∧
      (format_to_openai_function_messages steps)[2 * i + 1]? =
        some (Message.function steps[i].1.tool steps[i].2) := by
  refine ⟨?_, rfl, ?_⟩
  · induction steps with
    | nil => rfl
    | cons s rest ih =>
      simp only [format_to_openai_function_messages, List.flatMap_cons,
        List.length_append, List.length_cons, List.length_nil] at *
      omega
  · induction steps with
    | nil => intro i h; exact absurd h (Nat.not_lt_zero i)
    | cons s rest ih =>
      intro i h
      cases i with
      | zero =>
        simp [format_to_openai_function_messages, List.flatMap_cons]
      | succ j =>
        have hj : j < rest.length := Nat.lt_of_succ_lt_succ h
        have hrec := ih j hj
        simp only [format_to_openai_function_messages, List.flatMap_cons]
          at hrec ⊢
        have h2 : 2 * (j + 1) = (2 * j + 1) + 1 := by omega
        rw [h2]
        simp only [List.cons_append, List.nil_append, List.getElem?_cons_succ,
          List.getElem_cons_succ]
        exact hrec

theorem plan_eq (ag : OpenAIFunctionsAgent) (llm : LLMRequest → Message)
    (steps : List IntermediateStep) (wf : Bool)
    (kwargs : List (String × InputValue)) :
    ag.plan llm steps wf kwargs =
      match ag.buildMessages steps kwargs with
      | .error e => (.error e, [])
      | .ok messages =>
        (parse_ai_message (llm (if wf then ⟨messages, some ag.functions⟩
            else ⟨messages, none⟩)),
         [if wf then (⟨messages, some ag.functions⟩ : LLMRequest)
          else ⟨messages, none⟩]) := by
  cases hsel : selectedInputs ag.prompt.input_variables kwargs with
  | error e =>
    simp [OpenAIFunctionsAgent.plan, OpenAIFunctionsAgent.buildMessages, hsel,
      except_bind_error]
  | ok selected =>
    cases hfmt : ag.prompt.format_prompt (selected ++ [("agent_scratchpad",
        InputValue.messages (format_to_openai_function_messages steps))]) with
    | error e =>
      simp [OpenAIFunctionsAgent.plan, OpenAIFunctionsAgent.buildMessages, hsel,
        hfmt, except_bind_ok]
    | ok messages =>
      cases wf <;>
        simp [OpenAIFunctionsAgent.plan, OpenAIFunctionsAgent.buildMessages,
          hsel, hfmt, except_bind_ok]

theorem aplan_eq (ag : OpenAIFunctionsAgent) (llm : LLMRequest → Message)
    (steps : List IntermediateStep) (kwargs : List (String × InputValue)) :
    ag.aplan llm steps kwargs =
      match ag.buildMessages steps kwargs with
      | .error e => (.error e, [])
      | .ok messages =>
        (parse_ai_message (llm ⟨messages, some ag.functions⟩),
         [(⟨messages, some ag.functions⟩ : LLMRequest)]) := by
  cases hsel : selectedInputs ag.prompt.input_variables kwargs with
  | error e =>
    simp [OpenAIFunctionsAgent.aplan, OpenAIFunctionsAgent.buildMessages, hsel,
      except_bind_error]
  | ok selected =>
    cases hfmt : ag.prompt.format_prompt (selected ++ [("agent_scratchpad",
        InputValue.messages (format_to_openai_function_messages steps))]) with
    | error e =>
      simp [OpenAIFunctionsAgent.aplan, OpenAIFunctionsAgent.buildMessages,
        hsel, hfmt, except_bind_ok]
    | ok messages =>
      simp [OpenAIFunctionsAgent.aplan, OpenAIFunctionsAgent.buildMessages,
        hsel, hfmt, except_bind_ok]

theorem parse_ai_message_policy (m : Message) :
    parsePolicy m (parse_ai_message m) := by
  constructor
  · intro fc hfc
    constructor
    · intro j hj
      simp [parse_ai_message, hfc, hj]
    · intro hn
      exact ⟨"Could not parse tool input: " ++ fc.name,
        by simp [parse_ai_message, hfc, hn]⟩
  · intro h
    simp [parse_ai_message, h]

/-- C7: for every intermediate-step sequence and variable mapping, the
awaitable planning path produces exactly the same result (decision and request
trace) as the synchronous tools-enabled path — same rendered messages, same
offered schema list, same parsing — and the awaitable path always offers the
tool schemas (it has no tools-disabled variant). -/
theorem C7_plan_aplan_equivalence (ag : OpenAIFunctionsAgent)
    (llm : LLMRequest → Message) (steps : List IntermediateStep)
    (kwargs : List (String × InputValue)) :
    ag.aplan llm steps kwargs = ag.plan llm steps true kwargs ∧
    ((ag.aplan llm steps kwargs).2 = [] ∨
      ∃ msgs, (ag.aplan llm steps kwargs).2 =
        [(⟨msgs, some ag.functions⟩ : LLMRequest)]) := by
  rw [aplan_eq, plan_eq]
  cases hb : ag.buildMessages steps kwargs with
  | error e => simp
  | ok messages =>
    constructor
    · simp
    · right
      exact ⟨messages, by simp⟩

/-- C5: for every intermediate-step sequence and variable mapping,
`return_stopped_response` with selector "generate" performs exactly one
planning call with tool schemas disabled (its request trace is that call's
trace, and every request in it offers no schemas); an AgentFinish from that
call is returned unchanged, and an AgentAction fails with a
contract-violation error. -/
theorem C5_generate_one_toolless_call (ag : OpenAIFunctionsAgent)
    (llm : LLMRequest → Message) (steps : List IntermediateStep)
    (kwargs : List (String × InputValue)) :
    ((ag.return_stopped_response llm "generate" steps kwargs).2 =
      (ag.plan llm steps false kwargs).2) ∧
    (∀ f, (ag.plan llm steps false kwargs).1 = .ok (.finish f) →
      (ag.return_stopped_response llm "generate" steps kwargs).1 = .ok f) ∧
    (∀ a, (ag.plan llm steps false kwargs).1 = .ok (.action a) →
      ∃ msg, (ag.return_stopped_response llm "generate" steps kwargs).1 =
        .error (.contractViolation msg)) ∧
    ((ag.return_stopped_response llm "generate" steps kwargs).2 = [] ∨
      ∃ msgs, (ag.return_stopped_response llm "generate" steps kwargs).2 =
        [(⟨msgs, none⟩ : LLMRequest)]) := by
  have hunfold : ag.return_stopped_response llm "generate" steps kwargs =
      match ag.plan llm steps false kwargs with
      | (.ok (.finish f), tr) => (.ok f, tr)
      | (.ok (.action _), tr) =>
        (.error (.contractViolation "got AgentAction with no functions provided"),
         tr)
      | (.error e, tr) => (.error e, tr) := by
    unfold OpenAIFunctionsAgent.return_stopped_response
    rw [if_neg (by decide), if_pos rfl]
  rw [hunfold, plan_eq]
  cases hb : ag.buildMessages steps kwargs with
  | error e => simp
  | ok messages =>
    simp only [Bool.false_eq_true, if_false]
    cases hparse : parse_ai_message (llm ⟨messages, none⟩) with
    | error e => simp
    | ok d =>
      cases d with
      | action a => simp
      | finish f => simp

/-- Witness for C5: a model that answers with plain text makes the
tools-disabled planning call yield an AgentFinish, and "generate" returns it
unchanged. -/
theorem C5_generate_one_toolless_call_witness :
    ((agW.plan llmW [] false []).1 =
      .ok (.finish ⟨[("output", "It is sunny.")], "It is sunny."⟩)) ∧
    (agW.return_stopped_response llmW "generate" [] []).1 =
      .ok ⟨[("output", "It is sunny.")], "It is sunny."⟩ :=
  ⟨rfl, (C5_generate_one_toolless_call agW llmW [] []).2.1 _ rfl⟩

/-- C1: whenever a planning call (`plan` or `aplan`) sends a request to the
model, its result is the model's returned message parsed by exactly the spec's
policy: a function-call request with valid arguments yields the AgentAction
with the decoded input, a malformed argument payload yields a decoding error,
and a plain message yields an AgentFinish holding exactly the text content
under "output". -/
theorem C1_output_parsing_policy (ag : OpenAIFunctionsAgent)
    (llm : LLMRequest → Message) (steps : List IntermediateStep) (wf : Bool)
    (kwargs : List (String × InputValue)) (req req' : LLMRequest)
    (hp : (ag.plan llm steps wf kwargs).2 = [req])
    (ha : (ag.aplan llm steps kwargs).2 = [req']) :
    parsePolicy (llm req) (ag.plan llm steps wf kwargs).1 ∧
    parsePolicy (llm req') (ag.aplan llm steps kwargs).1 := by
  rw [plan_eq] at hp ⊢
  rw [aplan_eq] at ha ⊢
  revert hp ha
  cases hb : ag.buildMessages steps kwargs with
  | error e =>
    intro hp _
    simp at hp
  | ok messages =>
    intro hp ha
    cases wf
    all_goals
      simp at hp ha ⊢
    all_goals
      subst hp
    all_goals
      subst ha
    all_goals
      exact ⟨parse_ai_message_policy _, parse_ai_message_policy _⟩

/-- Witness for C1 at a concrete agent whose planning calls both send one
request. -/
theorem C1_output_parsing_policy_witness :
    ((agW.plan llmW [] true []).2 = [(⟨[], some []⟩ : LLMRequest)]) ∧
    ((agW.aplan llmW [] []).2 = [(⟨[], some []⟩ : LLMRequest)]) ∧
    (parsePolicy (llmW ⟨[], some []⟩) (agW.plan llmW [] true []).1 ∧
     parsePolicy (llmW ⟨[], some []⟩) (agW.aplan llmW [] []).1) :=
  ⟨rfl, rfl, C1_output_parsing_policy agW llmW [] true [] _ _ rfl rfl⟩

/-- Witness for C2 at a one-step history. -/
theorem C2_history_formatter_shape_witness :
    (0 < ([stepW] : List IntermediateStep).length) ∧
    ((format_to_openai_function_messages [stepW])[2 * 0]? =
      some (Message.ai "" (some ⟨"search",
        ArgsPayload.wellFormed (Json.obj [("q", Json.str "x")])⟩)) ∧
     (format_to_openai_function_messages [stepW])[2 * 0 + 1]? =
      some (Message.function "search" "obs")) :=
  ⟨Nat.zero_lt_one, (C2_history_formatter_shape [stepW]).2.2 0 Nat.zero_lt_one⟩

theorem selectedInputs_congr (vars : List String)
    (kw1 kw2 : List (String × InputValue))
    (h : ∀ k, k ∈ vars → k ≠ "agent_scratchpad" →
      lookupKey kw1 k = lookupKey kw2 k) :
    selectedInputs vars kw1 = selectedInputs vars kw2 := by
  induction vars with
  | nil => rfl
  | cons v vs ih =>
    by_cases hv : v = "agent_scratchpad"
    · simp only [selectedInputs, if_pos hv]
      exact ih (fun k hk hks => h k (List.mem_cons_of_mem v hk) hks)
    · simp only [selectedInputs, if_neg hv]
      rw [h v (List.mem_cons_self v vs) hv,
        ih (fun k hk hks => h k (List.mem_cons_of_mem v hk) hks)]

theorem selectedInputs_ok_of_present (vars : List String)
    (kw : List (String × InputValue))
    (h : ∀ k, k ∈ vars → k ≠ "agent_scratchpad" → (lookupKey kw k).isSome) :
    ∃ sel, selectedInputs vars kw = .ok sel := by
  induction vars with
  | nil => exact ⟨[], rfl⟩
  | cons v vs ih =>
    by_cases hv : v = "agent_scratchpad"
    · simp only [selectedInputs, if_pos hv]
      exact ih (fun k hk hks => h k (List.mem_cons_of_mem v hk) hks)
    · have hsome := h v (List.mem_cons_self v vs) hv
      cases hl : lookupKey kw v with
      | none => rw [hl] at hsome; simp at hsome
      | some val =>
        obtain ⟨sel, hsel⟩ := ih (fun k hk hks => h k (List.mem_cons_of_mem v hk) hks)
        exact ⟨(v, val) :: sel, by simp only [selectedInputs, if_neg hv, hl, hsel]⟩

theorem selectedInputs_error_of_missing (vars : List String)
    (kw : List (String × InputValue))
    (h : ∃ k, k ∈ vars ∧ k ≠ "agent_scratchpad" ∧ lookupKey kw k = none) :
    ∃ k', k' ∈ vars ∧ k' ≠ "agent_scratchpad" ∧ lookupKey kw k' = none ∧
      selectedInputs vars kw = .error (.missingVariable k') := by
  induction vars with
  | nil =>
    obtain ⟨k, hk, _, _⟩ := h
    exact absurd hk (List.not_mem_nil k)
  | cons v vs ih =>
    by_cases hv : v = "agent_scratchpad"
    · obtain ⟨k, hk, hks, hkn⟩ := h
      have hkvs : k ∈ vs := by
        cases List.mem_cons.mp hk with
        | inl he => exact absurd (he.trans hv) hks
        | inr hm => exact hm
      obtain ⟨k', h1, h2, h3, h4⟩ := ih ⟨k, hkvs, hks, hkn⟩
      exact ⟨k', List.mem_cons_of_mem v h1, h2, h3, by
        simp only [selectedInputs, if_pos hv]; exact h4⟩
    · cases hl : lookupKey kw v with
      | none =>
        exact ⟨v, List.mem_cons_self v vs, hv, hl, by
          simp only [selectedInputs, if_neg hv, hl]⟩
      | some val =>
        obtain ⟨k, hk, hks, hkn⟩ := h
        have hkvs : k ∈ vs := by
          cases List.mem_cons.mp hk with
          | inl he =>
            rw [he, hl] at hkn
            cases hkn
          | inr hm => exact hm
        obtain ⟨k', h1, h2, h3, h4⟩ := ih ⟨k, hkvs, hks, hkn⟩
        exact ⟨k', List.mem_cons_of_mem v h1, h2, h3, by
          simp only [selectedInputs, if_neg hv, hl, h4]⟩

theorem selectedInputs_lookup (vars : List String)
    (kw sel : List (String × InputValue))
    (h : selectedInputs vars kw = .ok sel) (k : String)
    (hk : k ≠ "agent_scratchpad") :
    lookupKey sel k = if k ∈ vars then lookupKey kw k else none := by
  induction vars generalizing sel with
  | nil =>
    simp only [selectedInputs] at h
    injection h with h2
    subst h2
    simp [lookupKey]
  | cons v vs ih =>
    by_cases hv : v = "agent_scratchpad"
    · simp only [selectedInputs, if_pos hv] at h
      rw [ih sel h]
      have hne : ¬ k = v := fun he => hk (he.trans hv)
      simp [List.mem_cons, hne]
    · simp only [selectedInputs, if_neg hv] at h
      cases hl : lookupKey kw v with
      | none => rw [hl] at h; cases h
      | some val =>
        rw [hl] at h
        cases hrec : selectedInputs vs kw with
        | error e => rw [hrec] at h; cases h
        | ok rest =>
          rw [hrec] at h
          injection h with h2
          subst h2
          by_cases hkv : v = k
          · subst hkv
            simp [lookupKey, hl, List.mem_cons]
          · simp only [lookupKey, if_neg hkv]
            rw [ih rest hrec]
            have hne : ¬ k = v := fun he => hkv he.symm
            simp [List.mem_cons, hne]

theorem selectedInputs_lookup_scratchpad (vars : List String)
    (kw sel : List (String × InputValue))
    (h : selectedInputs vars kw = .ok sel) :
    lookupKey sel "agent_scratchpad" = none := by
  induction vars generalizing sel with
  | nil =>
    simp only [selectedInputs] at h
    injection h with h2
    subst h2
    rfl
  | cons v vs ih =>
    by_cases hv : v = "agent_scratchpad"
    · simp only [selectedInputs, if_pos hv] at h
      exact ih sel h
    · simp only [selectedInputs, if_neg hv] at h
      cases hl : lookupKey kw v with
      | none => rw [hl] at h; cases h
      | some val =>
        rw [hl] at h
        cases hrec : selectedInputs vs kw with
        | error e => rw [hrec] at h; cases h
        | ok rest =>
          rw [hrec] at h
          injection h with h2
          subst h2
          simp only [lookupKey, if_neg hv]
          exact ih rest hrec

theorem full_inputs_lookup (vars : List String)
    (kw sel : List (String × InputValue)) (msgs : InputValue)
    (hsel : selectedInputs vars kw = .ok sel) (k : String) (hk : k ∈ vars)
    (hx : k ≠ "agent_scratchpad" → (lookupKey kw k).isSome) :
    lookupKey (sel ++ [("agent_scratchpad", msgs)]) k =
      if k = "agent_scratchpad" then some msgs else lookupKey kw k := by
  by_cases hks : k = "agent_scratchpad"
  · subst hks
    rw [lookupKey_append, selectedInputs_lookup_scratchpad vars kw sel hsel]
    simp [lookupKey]
  · rw [lookupKey_append, selectedInputs_lookup vars kw sel hsel k hks,
      if_pos hk, if_neg hks]
    obtain ⟨v, hv⟩ := Option.isSome_iff_exists.mp (hx hks)
    rw [hv]

theorem mapM_except_error {α β ε : Type} (f : α → Except ε β) (l : List α)
    (e : ε) (h : l.mapM f = .error e) : ∃ a, a ∈ l ∧ f a = .error e := by
  induction l with
  | nil => cases h
  | cons a l ih =>
    rw [List.mapM_cons] at h
    cases hf : f a with
    | error e2 =>
      rw [hf, except_bind_error] at h
      injection h with h2
      subst h2
      exact ⟨a, List.mem_cons_self a l, hf⟩
    | ok b =>
      rw [hf, except_bind_ok] at h
      cases hrest : l.mapM f with
      | error e2 =>
        rw [hrest, except_bind_error] at h
        injection h with h2
        subst h2
        obtain ⟨a2, ha2, hfa2⟩ := ih hrest
        exact ⟨a2, List.mem_cons_of_mem a ha2, hfa2⟩
      | ok bs =>
        rw [hrest, except_bind_ok] at h
        cases h

theorem renderPiece_error_missing (inputs : List (String × InputValue))
    (p : TemplatePiece) (k : String)
    (h : renderPiece inputs p = .error (.missingVariable k)) :
    k ∈ p.varsOf ∧ lookupKey inputs k = none := by
  cases p with
  | lit s => cases h
  | var n =>
    simp only [renderPiece] at h
    cases hl : lookupKey inputs n with
    | some v => rw [hl] at h; cases h
    | none =>
      rw [hl] at h
      injection h with h2
      injection h2 with h3
      subst h3
      exact ⟨by simp [TemplatePiece.varsOf], hl⟩

theorem renderSlot_error_missing (inputs : List (String × InputValue))
    (s : PromptSlot) (k : String)
    (h : renderSlot inputs s = .error (.missingVariable k)) :
    k ∈ s.varsOf ∧ lookupKey inputs k = none := by
  cases s with
  | fixedMessage m => cases h
  | humanTemplate pieces =>
    simp only [renderSlot] at h
    cases hm : pieces.mapM (renderPiece inputs) with
    | error e =>
      rw [hm, except_bind_error] at h
      injection h with h2
      subst h2
      obtain ⟨p, hp, hpe⟩ := mapM_except_error _ _ _ hm
      obtain ⟨hk, hl⟩ := renderPiece_error_missing inputs p k hpe
      refine ⟨?_, hl⟩
      simp only [PromptSlot.varsOf, List.mem_flatMap]
      exact ⟨p, hp, hk⟩
    | ok parts =>
      rw [hm, except_bind_ok] at h
      cases h
  | placeholder v =>
    simp only [renderSlot] at h
    cases hl : lookupKey inputs v with
    | some val =>
      rw [hl] at h
      cases val <;> cases h
    | none =>
      rw [hl] at h
      injection h with h2
      injection h2 with h3
      subst h3
      exact ⟨by simp [PromptSlot.varsOf], hl⟩

theorem format_prompt_error_missing (p : ChatPromptTemplate)
    (inputs : List (String × InputValue)) (k : String)
    (h : p.format_prompt inputs = .error (.missingVariable k)) :
    k ∈ p.input_variables ∧ lookupKey inputs k = none := by
  unfold ChatPromptTemplate.format_prompt at h
  cases hm : p.messages.mapM (renderSlot inputs) with
  | error e =>
    rw [hm, except_bind_error] at h
    injection h with h2
    subst h2
    obtain ⟨s, hs, hse⟩ := mapM_except_error _ _ _ hm
    obtain ⟨hk, hl⟩ := renderSlot_error_missing inputs s k hse
    refine ⟨?_, hl⟩
    simp only [ChatPromptTemplate.input_variables, List.mem_flatMap]
    exact ⟨s, hs, hk⟩
  | ok rendered =>
    rw [hm, except_bind_ok] at h
    cases h

theorem parse_ai_message_no_missing (m : Message) (k : String) :
    parse_ai_message m ≠ .error (.missingVariable k) := by
  unfold parse_ai_message
  cases m.function_call with
  | none => simp
  | some fc => cases h2 : fc.arguments.decode <;> simp [h2]

theorem renderPiece_congr (a b : List (String × InputValue))
    (p : TemplatePiece)
    (h : ∀ k, k ∈ p.varsOf → lookupKey a k = lookupKey b k) :
    renderPiece a p = renderPiece b p := by
  cases p with
  | lit s => rfl
  | var n =>
    simp only [renderPiece]
    rw [h n (by simp [TemplatePiece.varsOf])]

theorem renderPieces_congr (a b : List (String × InputValue))
    (ps : List TemplatePiece)
    (h : ∀ k, k ∈ ps.flatMap TemplatePiece.varsOf →
      lookupKey a k = lookupKey b k) :
    ps.mapM (renderPiece a) = ps.mapM (renderPiece b) := by
  induction ps with
  | nil => rfl
  | cons p ps ih =>
    rw [List.mapM_cons, List.mapM_cons]
    rw [renderPiece_congr a b p (fun k hk =>
      h k (by rw [List.flatMap_cons]; exact List.mem_append_left _ hk))]
    rw [ih (fun k hk =>
      h k (by rw [List.flatMap_cons]; exact List.mem_append_right _ hk))]

theorem renderSlot_congr (a b : List (String × InputValue)) (s : PromptSlot)
    (h : ∀ k, k ∈ s.varsOf → lookupKey a k = lookupKey b k) :
    renderSlot a s = renderSlot b s := by
  cases s with
  | fixedMessage m => rfl
  | humanTemplate pieces =>
    simp only [renderSlot]
    rw [renderPieces_congr a b pieces h]
  | placeholder v =>
    simp only [renderSlot]
    rw [h v (by simp [PromptSlot.varsOf])]

theorem renderSlots_congr (a b : List (String × InputValue))
    (slots : List PromptSlot)
    (h : ∀ k, k ∈ slots.flatMap PromptSlot.varsOf →
      lookupKey a k = lookupKey b k) :
    slots.mapM (renderSlot a) = slots.mapM (renderSlot b) := by
  induction slots with
  | nil => rfl
  | cons s slots ih =>
    rw [List.mapM_cons, List.mapM_cons]
    rw [renderSlot_congr a b s (fun k hk =>
      h k (by rw [List.flatMap_cons]; exact List.mem_append_left _ hk))]
    rw [ih (fun k hk =>
      h k (by rw [List.flatMap_cons]; exact List.mem_append_right _ hk))]

theorem format_prompt_congr (p : ChatPromptTemplate)
    (a b : List (String × InputValue))
    (h : ∀ k, k ∈ p.input_variables → lookupKey a k = lookupKey b k) :
    p.format_prompt a = p.format_prompt b := by
  unfold ChatPromptTemplate.format_prompt
  rw [renderSlots_congr a b p.messages h]

/-- C10: noninterference of undeclared inputs — two planning calls (plan or
aplan) agreeing on the intermediate steps and on the values of the declared
non-scratchpad template variables produce identical results (in particular
identical rendered messages sent to the model), whatever extra undeclared
entries or caller-supplied "agent_scratchpad" entries the mappings carry; and
a caller-supplied "agent_scratchpad" entry is always replaced by the formatted
intermediate steps, leaving the call unchanged. -/
theorem C10_noninterference_of_undeclared_inputs (ag : OpenAIFunctionsAgent)
    (llm : LLMRequest → Message) (steps : List IntermediateStep) (wf : Bool)
    (kw1 kw2 : List (String × InputValue))
    (h : ∀ k, k ∈ ag.prompt.input_variables → k ≠ "agent_scratchpad" →
      lookupKey kw1 k = lookupKey kw2 k) :
    ag.plan llm steps wf kw1 = ag.plan llm steps wf kw2 ∧
    ag.aplan llm steps kw1 = ag.aplan llm steps kw2 ∧
    ∀ v, ag.plan llm steps wf (dictInsert kw1 "agent_scratchpad" v) =
      ag.plan llm steps wf kw1 := by
  have hbm : ag.buildMessages steps kw1 = ag.buildMessages steps kw2 := by
    unfold OpenAIFunctionsAgent.buildMessages
    rw [selectedInputs_congr ag.prompt.input_variables kw1 kw2 h]
  refine ⟨?_, ?_, ?_⟩
  · rw [plan_eq, plan_eq, hbm]
  · rw [aplan_eq, aplan_eq, hbm]
  · intro v
    have h2 : ∀ k, k ∈ ag.prompt.input_variables → k ≠ "agent_scratchpad" →
        lookupKey (dictInsert kw1 "agent_scratchpad" v) k = lookupKey kw1 k :=
      fun k _ hks =>
        lookupKey_dictInsert_ne kw1 "agent_scratchpad" k v
          (fun he => hks he.symm)
    have hbm2 : ag.buildMessages steps (dictInsert kw1 "agent_scratchpad" v) =
        ag.buildMessages steps kw1 := by
      unfold OpenAIFunctionsAgent.buildMessages
      rw [selectedInputs_congr ag.prompt.input_variables _ kw1 h2]
    rw [plan_eq, plan_eq, hbm2]

/-- Witness for C10: extra undeclared entries and a caller-supplied
scratchpad entry do not change the planning result. -/
theorem C10_noninterference_of_undeclared_inputs_witness :
    agW.plan llmW [] true [("extra", InputValue.str "ignored")] =
      agW.plan llmW [] true [] ∧
    agW.aplan llmW [] [("extra", InputValue.str "ignored")] =
      agW.aplan llmW [] [] ∧
    agW.plan llmW [] true
        (dictInsert [("extra", InputValue.str "ignored")] "agent_scratchpad"
          (InputValue.str "hacked")) =
      agW.plan llmW [] true [("extra", InputValue.str "ignored")] := by
  have h := C10_noninterference_of_undeclared_inputs agW llmW [] true
    [("extra", InputValue.str "ignored")] []
    (by
      intro k hk hks
      simp [agW, ChatPromptTemplate.input_variables, PromptSlot.varsOf] at hk
      exact absurd hk hks)
  exact ⟨h.1, h.2.1, h.2.2 (InputValue.str "hacked")⟩

/-- C9: a planning call (plan or aplan) whose variable mapping lacks some
declared non-scratchpad variable fails with the missing-variable error before
any request is sent to the model; when every such variable is supplied, the
call never fails with a missing-variable error. -/
theorem C9_missing_required_variable (ag : OpenAIFunctionsAgent)
    (llm : LLMRequest → Message) (steps : List IntermediateStep) (wf : Bool)
    (kwargs : List (String × InputValue)) :
    ((∃ k, k ∈ ag.prompt.input_variables ∧ k ≠ "agent_scratchpad" ∧
        lookupKey kwargs k = none) →
      ∃ k', k' ∈ ag.prompt.input_variables ∧ k' ≠ "agent_scratchpad" ∧
        lookupKey kwargs k' = none ∧
        ag.plan llm steps wf kwargs = (.error (.missingVariable k'), []) ∧
        ag.aplan llm steps kwargs = (.error (.missingVariable k'), [])) ∧
    ((∀ k, k ∈ ag.prompt.input_variables → k ≠ "agent_scratchpad" →
        (lookupKey kwargs k).isSome) →
      (∀ k, (ag.plan llm steps wf kwargs).1 ≠ .error (.missingVariable k)) ∧
      (∀ k, (ag.aplan llm steps kwargs).1 ≠ .error (.missingVariable k))) := by
  constructor
  · intro hmiss
    obtain ⟨k', h1, h2, h3, h4⟩ :=
      selectedInputs_error_of_missing ag.prompt.input_variables kwargs hmiss
    have hbm : ag.buildMessages steps kwargs = .error (.missingVariable k') := by
      unfold OpenAIFunctionsAgent.buildMessages
      rw [h4, except_bind_error]
    refine ⟨k', h1, h2, h3, ?_, ?_⟩
    · rw [plan_eq, hbm]
    · rw [aplan_eq, hbm]
  · intro hpresent
    obtain ⟨sel, hsel⟩ :=
      selectedInputs_ok_of_present ag.prompt.input_variables kwargs hpresent
    have hbm : ∀ k, ag.buildMessages steps kwargs ≠ .error (.missingVariable k) := by
      intro k hcontra
      unfold OpenAIFunctionsAgent.buildMessages at hcontra
      rw [hsel, except_bind_ok] at hcontra
      obtain ⟨hk, hl⟩ := format_prompt_error_missing _ _ _ hcontra
      rw [full_inputs_lookup ag.prompt.input_variables kwargs sel _ hsel k hk
        (fun hks => hpresent k hk hks)] at hl
      by_cases hks : k = "agent_scratchpad"
      · rw [if_pos hks] at hl
        cases hl
      · rw [if_neg hks] at hl
        have := hpresent k hk hks
        rw [hl] at this
        cases this
    constructor
    · intro k
      rw [plan_eq]
      cases hb : ag.buildMessages steps kwargs with
      | error e =>
        simp only []
        intro hcontra
        injection hcontra with h2
        subst h2
        exact hbm k hb
      | ok messages =>
        simp only []
        exact parse_ai_message_no_missing _ k
    · intro k
      rw [aplan_eq]
      cases hb : ag.buildMessages steps kwargs with
      | error e =>
        simp only []
        intro hcontra
        injection hcontra with h2
        subst h2
        exact hbm k hb
      | ok messages =>
        simp only []
        exact parse_ai_message_no_missing _ k

/-- Witness for C9: a mapping lacking the declared "input" variable makes the
call fail before the model is invoked, and a fully supplied mapping never
fails with a missing-variable error. -/
theorem C9_missing_required_variable_witness :
    (∃ k, k ∈ agV.prompt.input_variables ∧ k ≠ "agent_scratchpad" ∧
      lookupKey [] k = none) ∧
    (∃ k', k' ∈ agV.prompt.input_variables ∧ k' ≠ "agent_scratchpad" ∧
      lookupKey [] k' = none ∧
      agV.plan llmW [] true [] = (.error (.missingVariable k'), []) ∧
      agV.aplan llmW [] [] = (.error (.missingVariable k'), [])) ∧
    ((agW.plan llmW [] true []).1 ≠ .error (.missingVariable "input") ∧
     (agW.aplan llmW [] []).1 ≠ .error (.missingVariable "input")) := by
  have h2 := (C9_missing_required_variable agW llmW [] true []).2
    (by
      intro k hk hks
      simp [agW, ChatPromptTemplate.input_variables, PromptSlot.varsOf] at hk
      exact absurd hk hks)
  exact ⟨⟨"input", by decide, by decide, rfl⟩,
    (C9_missing_required_variable agV llmW [] true []).1
      ⟨"input", by decide, by decide, rfl⟩,
    h2.1 "input", h2.2 "input"⟩

theorem runPipeline_eq (tools : List ToolSpec) (prompt : ChatPromptTemplate)
    (llm : LLMRequest → Message) (x : List (String × InputValue))
    (ss : List IntermediateStep)
    (hss : lookupKey x "intermediate_steps" = some (.steps ss)) :
    runPipeline tools prompt llm x =
      match prompt.format_prompt (dictInsert x "agent_scratchpad"
          (InputValue.messages (format_to_openai_function_messages ss))) with
      | .error e => (.error e, [])
      | .ok messages =>
        (parse_ai_message
          (llm ⟨messages, some (tools.map format_tool_to_openai_function)⟩),
         [⟨messages, some (tools.map format_tool_to_openai_function)⟩]) := by
  unfold runPipeline
  rw [hss]

/-- C8: the declarative pipeline returned by `create_openai_functions_agent`
is behaviorally equivalent to `plan`'s synchronous tools-enabled path: for
every input mapping containing the intermediate steps and the template's
declared variables, and the same model, both produce the same result. -/
theorem C8_pipeline_equivalence (tools : List ToolSpec)
    (prompt : ChatPromptTemplate) (llm : LLMRequest → Message)
    (x : List (String × InputValue)) (ss : List IntermediateStep)
    (pipe : (LLMRequest → Message) → List (String × InputValue) →
      Except AgentError Decision × List LLMRequest)
    (hpipe : create_openai_functions_agent tools prompt = .ok pipe)
    (hss : lookupKey x "intermediate_steps" = some (.steps ss))
    (hx : ∀ k, k ∈ prompt.input_variables → k ≠ "agent_scratchpad" →
      (lookupKey x k).isSome) :
    pipe llm x = OpenAIFunctionsAgent.plan ⟨tools, prompt⟩ llm ss true x := by
  have hm : "agent_scratchpad" ∈ prompt.input_variables := by
    by_contra hnm
    unfold create_openai_functions_agent at hpipe
    rw [if_neg hnm] at hpipe
    cases hpipe
  unfold create_openai_functions_agent at hpipe
  rw [if_pos hm] at hpipe
  injection hpipe with hpipe
  subst hpipe
  obtain ⟨sel, hsel⟩ := selectedInputs_ok_of_present prompt.input_variables x hx
  have hbm : OpenAIFunctionsAgent.buildMessages ⟨tools, prompt⟩ ss x =
      prompt.format_prompt (dictInsert x "agent_scratchpad"
        (InputValue.messages (format_to_openai_function_messages ss))) := by
    unfold OpenAIFunctionsAgent.buildMessages
    rw [hsel, except_bind_ok]
    apply format_prompt_congr
    intro k hk
    rw [full_inputs_lookup prompt.input_variables x sel _ hsel k hk
      (fun hks => hx k hk hks)]
    by_cases hks : k = "agent_scratchpad"
    · rw [if_pos hks, hks, lookupKey_dictInsert_self]
    · rw [if_neg hks,
        lookupKey_dictInsert_ne x "agent_scratchpad" k _ (fun he => hks he.symm)]
  rw [runPipeline_eq tools prompt llm x ss hss, plan_eq, hbm]
  simp [OpenAIFunctionsAgent.functions]

/-- Witness for C8 at a concrete template, tool list and input mapping. -/
theorem C8_pipeline_equivalence_witness :
    (create_openai_functions_agent [] agW.prompt =
      .ok (runPipeline [] agW.prompt)) ∧
    (lookupKey [("intermediate_steps", InputValue.steps [stepW])]
      "intermediate_steps" = some (InputValue.steps [stepW])) ∧
    runPipeline [] agW.prompt llmW
        [("intermediate_steps", InputValue.steps [stepW])] =
      OpenAIFunctionsAgent.plan ⟨[], agW.prompt⟩ llmW [stepW] true
        [("intermediate_steps", InputValue.steps [stepW])] :=
  ⟨rfl, rfl,
   C8_pipeline_equivalence [] agW.prompt llmW
     [("intermediate_steps", InputValue.steps [stepW])] [stepW]
     (runPipeline [] agW.prompt) rfl rfl
     (by
       intro k hk hks
       simp [agW, ChatPromptTemplate.input_variables, PromptSlot.varsOf] at hk
       exact absurd hk hks)⟩
